import Mathlib

/-!
Shallow embedding of the InstaScraper core: the four-strategy retrieval
chain (`scraper/spiders/instagram_profile.py`), the proxy pool
(`app/proxy_manager.py`) and the orchestrator (`app/scraper_service.py`).

Python values decoded from JSON are modelled by `Json`; Python `None` is
`Json.null`.  A Python function that can raise an uncaught exception is
modelled with `Except Unit`; `.error ()` stands for the exception
(AttributeError / IndexError / TypeError / ValueError) propagating out of
the callback.
-/

/-- JSON-decodable Python values (dict modelled as an association list,
floats restricted to integers, which is all the claims touch). -/
inductive Json where
  | null
  | bool (b : Bool)
  | num (n : Int)
  | str (s : String)
  | arr (items : List Json)
  | obj (fields : List (String × Json))

/-- Python truthiness of a decoded value (`if payload:` etc.):
`None`, `False`, `0`, `""`, `[]`, `{}` are falsy. -/
def Json.truthy : Json → Bool
  | .null => false
  | .bool b => b
  | .num n => n != 0
  | .str s => s != ""
  | .arr items => !items.isEmpty
  | .obj fields => !fields.isEmpty

/-- Python `d.get(key, default)`.  Returns `none` when the receiver is not a
dict (the call raises AttributeError in Python). -/
def Json.dget (j : Json) (key : String) (dflt : Json) : Option Json :=
  match j with
  | .obj fields => some ((List.lookup key fields).getD dflt)
  | _ => none

/-- Variant of `Json.dget` in the exception monad: a non-dict receiver raises. -/
def Json.dgetE (j : Json) (key : String) (dflt : Json) : Except Unit Json :=
  match j.dget key dflt with
  | some v => Except.ok v
  | none => Except.error ()

/-- Python `str.strip()`: drop whitespace from both ends. -/
def pyStrip (s : String) : String :=
  String.mk
    (((s.data.dropWhile Char.isWhitespace).reverse.dropWhile Char.isWhitespace).reverse)

/-- Decimal digits to a number, `none` when empty or non-digit characters
appear. -/
def parseDigits (cs : List Char) : Option Nat :=
  if cs.isEmpty then none
  else if cs.all Char.isDigit then
    some (cs.foldl (fun a c => a * 10 + (c.toNat - 48)) 0)
  else none

/-- Python `int(s)` on a string: optional sign around decimal digits after
stripping whitespace; `none` models the ValueError. -/
def pyStrToInt (s : String) : Option Int :=
  match (pyStrip s).data with
  | '-' :: rest => (parseDigits rest).map (fun n => -(n : Int))
  | '+' :: rest => (parseDigits rest).map (fun n => (n : Int))
  | cs => (parseDigits cs).map (fun n => (n : Int))

/-- Python `int(x)` on a decoded value: ints pass through, booleans become
0/1, numeric strings are parsed (ValueError on anything else is `none`). -/
def pyInt : Json → Option Int
  | .num n => some n
  | .bool b => some (if b then 1 else 0)
  | .str s => pyStrToInt s
  | _ => none

/-- The dict appended to `result_buffer` by the spider: one retrieval
result.  `full_name`, `biography` and `profile_picture_url` keep their
Python values (string or `None`), as in the source dict literal. -/
structure ProfileRecord where
  username : String
  full_name : Json
  biography : Json
  followers : Int
  profile_picture_url : Json

/-- Python `a or b` on decoded values: `a` when truthy, else `b`. -/
def pyOr (a b : Json) : Json :=
  if a.truthy then a else b

/-- Embedding of `InstagramProfileSpider._build_result_from_user` (instagram_profile.py
lines 306-322).  `followers = int((user.get("edge_followed_by", {}) or
{}).get("count") or 0)`, `biography if biography else None`,
`profile_pic_url_hd or profile_pic_url`; `.error ()` models the
AttributeError / ValueError that a malformed user object raises. -/
def build_result_from_user (username : String) (user : Json) : Except Unit ProfileRecord :=
  match user with
  | .obj fields =>
      match (pyOr ((List.lookup "edge_followed_by" fields).getD (.obj []))
          (.obj [])).dget "count" .null with
      | none => Except.error ()
      | some count =>
          match pyInt (pyOr count (.num 0)) with
          | none => Except.error ()
          | some n =>
              Except.ok
                { username := username
                  full_name := (List.lookup "full_name" fields).getD .null
                  biography := pyOr ((List.lookup "biography" fields).getD .null) .null
                  followers := n
                  profile_picture_url :=
                    pyOr ((List.lookup "profile_pic_url_hd" fields).getD .null)
                      ((List.lookup "profile_pic_url" fields).getD .null) }
  | _ => Except.error ()

/-- Model of `self.username = username.strip().lstrip("@")` in
`InstagramProfileSpider.__init__` (line 39): surrounding whitespace
stripped, then every leading `@` removed.  No lowercasing happens. -/
def spider_username (username : String) : String :=
  String.mk ((pyStrip username).data.dropWhile (fun c => c = '@'))

/-- One HTTP response as a strategy callback sees it: the status code, the
body text, and the outcome of `response.json()` (`none` models
`json.JSONDecodeError`). -/
structure Response where
  status : Nat
  text : String
  payload : Option Json

/-- The two distinct `ProfileNotFound` messages the spider raises. -/
inductive NotFoundReason where
  | profileMissing
  | unableToExtract
deriving DecidableEq

/-- Outcome of one strategy callback: append a record, fall through to the
next strategy, raise `ProfileNotFound`, raise `RateLimited`, or let an
unexpected Python exception escape (`pyError`). -/
inductive StepResult where
  | success (record : ProfileRecord)
  | advance
  | notFound (reason : NotFoundReason)
  | rateLimited
  | pyError

/-- Whether a step outcome is the fall-through ("advance") signal. -/
def StepResult.isAdvance : StepResult → Bool
  | .advance => true
  | _ => false

/-- Model of `user = (payload or {}).get("data", {}).get("user") if payload else
None` — shared by the mobile-API and web-API parsers. -/
def dataUser (payload : Option Json) : Except Unit Json :=
  match payload with
  | none => Except.ok .null
  | some p =>
      if p.truthy then
        match p.dget "data" (.obj []) with
        | none => Except.error ()
        | some d =>
            match d.dget "user" .null with
            | none => Except.error ()
            | some u => Except.ok u
      else Except.ok .null

/-- Shared tail of the JSON parsers: given the looked-up user value, append
a record if it is truthy, otherwise advance. -/
def finishUser (username : String) (u : Json) : StepResult :=
  if u.truthy then
    match build_result_from_user username u with
    | .ok rec => .success rec
    | .error _ => .pyError
  else .advance

/-- Embedding of `InstagramProfileSpider.parse_mobile_api` (lines 74-94): 404 and 429
are terminal; a 200 with non-blank body and a truthy user succeeds;
everything else schedules the web-API request (advance). -/
def parse_mobile_api (username : String) (r : Response) : StepResult :=
  if r.status = 404 then .notFound .profileMissing
  else if r.status = 429 then .rateLimited
  else if r.status = 200 ∧ pyStrip r.text ≠ "" then
    match dataUser r.payload with
    | .error _ => .pyError
    | .ok u => finishUser username u
  else .advance

/-- Embedding of `InstagramProfileSpider.parse_api_v1` (lines 96-124): like the mobile
parser but without the blank-body guard; falls through to the legacy JSON
endpoint. -/
def parse_api_v1 (username : String) (r : Response) : StepResult :=
  if r.status = 404 then .notFound .profileMissing
  else if r.status = 429 then .rateLimited
  else if r.status = 200 then
    match dataUser r.payload with
    | .error _ => .pyError
    | .ok u => finishUser username u
  else .advance

/-- The three-shape user lookup of `parse_legacy_json` (lines 145-149):
`payload.get("graphql", {}).get("user") or payload.get("data",
{}).get("user") or payload.get("items", [{}])[0].get("user", {})`.
Short-circuits like Python `or`; `[][0]` raises IndexError and indexing a
non-list raises, both modelled by `.error ()`. -/
def legacyUser (payload : Json) : Except Unit Json :=
  match payload.dgetE "graphql" (.obj []) with
  | .error e => .error e
  | .ok g =>
      match g.dgetE "user" .null with
      | .error e => .error e
      | .ok gu =>
          if gu.truthy then .ok gu
          else
            match payload.dgetE "data" (.obj []) with
            | .error e => .error e
            | .ok d =>
                match d.dgetE "user" .null with
                | .error e => .error e
                | .ok du =>
                    if du.truthy then .ok du
                    else
                      match payload.dgetE "items" (.arr [.obj []]) with
                      | .error e => .error e
                      | .ok it =>
                          match it with
                          | .arr (x :: _) => x.dgetE "user" (.obj [])
                          | _ => .error ()

/-- Embedding of `InstagramProfileSpider.parse_legacy_json` (lines 126-156): 404/429
terminal; status ≥ 400 or blank body or JSON-decode failure or falsy user
advance to the HTML fallback; truthy user appends a record. -/
def parse_legacy_json (username : String) (r : Response) : StepResult :=
  if r.status = 404 then .notFound .profileMissing
  else if r.status = 429 then .rateLimited
  else if 400 ≤ r.status ∨ pyStrip r.text = "" then .advance
  else
    match r.payload with
    | none => .advance
    | some p =>
        match legacyUser p with
        | .error _ => .pyError
        | .ok u => finishUser username u

/-- What the regex scans of `_extract_from_html` (lines 324-362) found in
the page: the capture of each of the four field patterns, and the decoded
script blob from `_extract_json_blob` (two marker patterns + `json.loads`;
`none` = no marker matched or decode failed).  `followersMatch` is the
`(\d+)` capture of the `edge_followed_by` pattern, hence a `Nat`. -/
structure HtmlScan where
  blob : Option Json
  followersMatch : Option Nat
  picMatch : Option String
  fullNameMatch : Option String
  bioMatch : Option String

/-- The user lookup on the script blob (lines 327-332):
`payload.get("entry_data", {}).get("ProfilePage", [{}])[0].get("graphql",
{}).get("user")`; list indexing of an empty `ProfilePage` raises. -/
def blobUser (payload : Json) : Except Unit Json :=
  match payload.dgetE "entry_data" (.obj []) with
  | .error e => .error e
  | .ok e1 =>
      match e1.dgetE "ProfilePage" (.arr [.obj []]) with
      | .error e => .error e
      | .ok pp =>
          match pp with
          | .arr (x :: _) =>
              match x.dgetE "graphql" (.obj []) with
              | .error e => .error e
              | .ok g => g.dgetE "user" .null
          | _ => .error ()

/-- The regex half of `_extract_from_html` (lines 336-362).  `unesc` models
`html.unescape` and `udec` models `.encode("utf-8").decode
("unicode_escape")`; both are taken as parameters since the claims only
depend on how their results are combined.  Returns `none` when
`followers == 0 and not profile_pic`. -/
def regexExtract (unesc udec : String → String) (username : String)
    (s : HtmlScan) : Option ProfileRecord :=
  let followers : Int :=
    match s.followersMatch with
    | some n => (n : Int)
    | none => 0
  let profile_pic : Option String :=
    s.picMatch.map (fun raw => ((unesc (udec raw)).replace "\\u0026" "&"))
  let biography : Option String := s.bioMatch.map (fun raw => unesc (udec raw))
  if followers = 0 ∧ (profile_pic.getD "") = "" then none
  else
    some
      { username := username
        full_name :=
          match s.fullNameMatch with
          | some raw => .str (unesc raw)
          | none => .null
        biography :=
          match biography with
          | some b => .str b
          | none => .null
        followers := followers
        profile_picture_url :=
          match profile_pic with
          | some p => .str p
          | none => .null }

/-- Embedding of `InstagramProfileSpider._extract_from_html` (lines 324-362): try the
blob, fall back to the regex extraction when the blob is missing, falsy, or
lacks a truthy user; `.ok none` is the `return None` that `parse_html`
turns into `ProfileNotFound`. -/
def extract_from_html (unesc udec : String → String) (username : String)
    (s : HtmlScan) : Except Unit (Option ProfileRecord) :=
  let fallback := Except.ok (regexExtract unesc udec username s)
  match s.blob with
  | none => fallback
  | some payload =>
      if payload.truthy then
        match blobUser payload with
        | .error e => .error e
        | .ok u =>
            if u.truthy then
              match build_result_from_user username u with
              | .ok rec => Except.ok (some rec)
              | .error e => .error e
            else fallback
      else fallback

/-- The response to the HTML fallback request as `parse_html` sees it. -/
structure HtmlResponse where
  status : Nat
  scan : HtmlScan

/-- Embedding of `InstagramProfileSpider.parse_html` (lines 158-172): 404/429 terminal,
otherwise extraction failure raises `ProfileNotFound("Unable to extract
data from Instagram profile ...")`. -/
def parse_html (unesc udec : String → String) (username : String)
    (r : HtmlResponse) : StepResult :=
  if r.status = 404 then .notFound .profileMissing
  else if r.status = 429 then .rateLimited
  else
    match extract_from_html unesc udec username r.scan with
    | .error _ => .pyError
    | .ok none => .notFound .unableToExtract
    | .ok (some rec) => .success rec

/-- The four retrieval strategies, in their scheduling order. -/
inductive Strategy where
  | mobile
  | webApi
  | legacyJson
  | html
deriving DecidableEq

/-- The per-strategy responses one spider run would receive. -/
structure ChainInput where
  mobileResp : Response
  webResp : Response
  legacyResp : Response
  htmlResp : HtmlResponse

/-- One spider run: `start_requests` issues the mobile-API request and each
parser schedules the next strategy exactly when it neither appends a record
nor raises (`_schedule_web_api` / `_schedule_legacy_json` /
`_schedule_html_fallback`).  Returns the final outcome and the list of
strategies whose callbacks ran, in order. -/
def runChain (unesc udec : String → String) (username : String)
    (inp : ChainInput) : StepResult × List Strategy :=
  match parse_mobile_api username inp.mobileResp with
  | .advance =>
      match parse_api_v1 username inp.webResp with
      | .advance =>
          match parse_legacy_json username inp.legacyResp with
          | .advance =>
              (parse_html unesc udec username inp.htmlResp,
                [.mobile, .webApi, .legacyJson, .html])
          | o => (o, [.mobile, .webApi, .legacyJson])
      | o => (o, [.mobile, .webApi])
  | o => (o, [.mobile])

/-- State of `ProxyManager` (`app/proxy_manager.py`): the rotating deque of
SOCKS5 hostnames (head = deque front) and the `_bad_hosts` cooldown dict
from hostname to the `time.time()` value at which it becomes available
again.  Timestamps are rationals standing in for Python floats. -/
structure ProxyManager where
  pool : List String
  badHosts : List (String × ℚ)

/-- The skip test of the selection loop (lines 61-63):
`available_at = self._bad_hosts.get(host); if available_at and
available_at > now: continue` — note the float-truthiness guard. -/
def hostSkipped (bad : List (String × ℚ)) (now : ℚ) (host : String) : Bool :=
  match List.lookup host bad with
  | some t => decide (t ≠ 0) && decide (now < t)
  | none => false

/-- The `while self._pool and attempts <= max_attempts` loop of
`get_next_host` (lines 57-64): take the deque front, `rotate(-1)`, return
it unless its cooldown is still running.  `fuel` counts the remaining
permitted iterations (`max_attempts + 1` at entry, since `attempts` starts
at 0 and the bound is inclusive); the rotated deque is returned so the
post-loop code sees the final pool state. -/
def scanLoop (now : ℚ) (bad : List (String × ℚ)) :
    List String → Nat → Option String × List String
  | pool, 0 => (none, pool)
  | [], _ => (none, [])
  | h :: t, fuel + 1 =>
      if hostSkipped bad now h then scanLoop now bad (t ++ [h]) fuel
      else (some h, t ++ [h])

/-- Embedding of `ProxyManager.get_next_host` (lines 50-73).  `refreshHosts` is the
shuffled hostname list `_refresh_pool` would append (empty when the NordVPN
listing request fails or returns nothing); the refresh runs only on the
`if not self._pool` branch, and the final fallback returns the deque front
without re-checking its cooldown. -/
def get_next_host (now : ℚ) (refreshHosts : List String) (pm : ProxyManager) :
    Option String × ProxyManager :=
  match scanLoop now pm.badHosts pm.pool (pm.pool.length + 1) with
  | (some h, pool1) => (some h, { pm with pool := pool1 })
  | (none, pool1) =>
      let pool2 := if pool1.isEmpty then pool1 ++ refreshHosts else pool1
      match pool2 with
      | [] => (none, { pm with pool := [] })
      | h :: t => (some h, { pm with pool := t ++ [h] })

/-- Embedding of `ProxyManager.mark_bad` (lines 75-78):
`self._bad_hosts[host] = time.time() + cooldown_seconds`. -/
def mark_bad (pm : ProxyManager) (host : String) (now cooldown : ℚ) : ProxyManager :=
  { pm with
    badHosts := (host, now + cooldown) :: pm.badHosts.filter (fun kv => kv.1 != host) }

/-- Outcome of one `_run_spider` crawl as `scrape_instagram_profile`
observes it: the crawl finished (having appended a record or not), or one
of the spider's typed exceptions, or an arbitrary other exception. -/
inductive SpiderOutcome where
  | completed (rec : Option ProfileRecord)
  | timeout
  | rateLimited
  | notFound
  | unexpected (msg : String)

/-- Environment of one `scrape_instagram_profile` call: the settings the
loop reads and the behaviour of its external collaborators.  `proxyRun k`
is the outcome the spider would produce on loop iteration `k`,
`refreshHosts k` the candidates a pool refresh during iteration `k` would
append, `reachable` the `_proxy_reachable` probe, and `socks5_url` the
`Settings.socks5_url` helper (`none` when credentials or port are
missing). -/
structure OrchestratorEnv where
  proxy_retry_limit : Nat
  socks5_url : String → Option String
  reachable : String → Bool
  proxyRun : Nat → SpiderOutcome
  directRun : SpiderOutcome
  refreshHosts : Nat → List String
  now : ℚ

/-- How the proxy loop of `scrape_instagram_profile` (lines 102-137) ends:
`terminalRL` / `terminalNF` re-raise `RateLimitError` /
`ProfileNotFoundError` at once, `exited` collects every `break` and the
`while` guard running out (`buf` is `result_buffer`, empty or holding the
appended record).  All constructors carry the final pool state, the
accumulated `failure_reasons`, and the proxy runs performed (host paired
with outcome, in order). -/
inductive LoopExit where
  | terminalRL (pm : ProxyManager) (reasons : List String)
      (trace : List (String × SpiderOutcome))
  | terminalNF (pm : ProxyManager) (reasons : List String)
      (trace : List (String × SpiderOutcome))
  | exited (buf : Option ProfileRecord) (pm : ProxyManager)
      (reasons : List String) (trace : List (String × SpiderOutcome))

/-- The `while proxy_attempts < settings.proxy_retry_limit` loop (lines
102-137).  `fuel = limit - proxy_attempts` (every non-breaking iteration
increments `proxy_attempts`); `k` numbers the iterations for `proxyRun` /
`refreshHosts`.  An unreachable proxy is marked bad for 600 s and skipped;
timeouts and unexpected errors mark bad, append a failure reason, back off
and continue; `RateLimited` marks bad and raises; `ProfileNotFound`
raises; a completed crawl breaks. -/
def proxyLoop (env : OrchestratorEnv) :
    Nat → Nat → ProxyManager → List String → List (String × SpiderOutcome) → LoopExit
  | 0, _, pm, reasons, trace => .exited none pm reasons trace
  | fuel + 1, k, pm, reasons, trace =>
      match get_next_host env.now (env.refreshHosts k) pm with
      | (none, pm1) => .exited none pm1 reasons trace
      | (some host, pm1) =>
          match env.socks5_url host with
          | none => .exited none pm1 reasons trace
          | some url =>
              if env.reachable url then
                match env.proxyRun k with
                | .completed rec =>
                    .exited rec pm1 reasons (trace ++ [(host, .completed rec)])
                | .timeout =>
                    proxyLoop env fuel (k + 1) (mark_bad pm1 host env.now 600)
                      (reasons ++ ["Proxy timeout via " ++ host])
                      (trace ++ [(host, .timeout)])
                | .rateLimited =>
                    .terminalRL (mark_bad pm1 host env.now 600) reasons
                      (trace ++ [(host, .rateLimited)])
                | .notFound =>
                    .terminalNF pm1 reasons (trace ++ [(host, .notFound)])
                | .unexpected msg =>
                    proxyLoop env fuel (k + 1) (mark_bad pm1 host env.now 600)
                      (reasons ++ ["Proxy " ++ host ++ " unexpected error: " ++ msg])
                      (trace ++ [(host, .unexpected msg)])
              else
                proxyLoop env fuel (k + 1) (mark_bad pm1 host env.now 600) reasons trace

/-- What `scrape_instagram_profile` does for the caller: return the record
or raise.  `notFoundAggregated` is the final `ProfileNotFoundError` whose
detail joins the accumulated `failure_reasons` (or says "No data
returned"); `notFoundFromSpider` wraps the spider's own `ProfileNotFound`;
`notFoundDirectError` is the `ProfileNotFoundError` raised around an
unexpected direct-attempt exception; `runtimeErr` is
`ScraperRuntimeError`. -/
inductive Final where
  | ok (rec : ProfileRecord)
  | notFoundFromSpider
  | notFoundDirectError (msg : String)
  | notFoundAggregated (reasons : List String)
  | rateLimitedErr
  | runtimeErr

/-- Result of one orchestrator call: the outcome raised or returned, the
proxy runs performed, whether (and how) the direct attempt ran, the final
pool state and the accumulated failure reasons. -/
structure OrchResult where
  final : Final
  proxyRuns : List (String × SpiderOutcome)
  direct : Option SpiderOutcome
  pm : ProxyManager
  reasons : List String

/-- Embedding of `scrape_instagram_profile` (scraper_service.py lines 78-164): run the
proxy loop; when it ends with an empty `result_buffer`, make the single
direct (proxy-less) attempt and classify its outcome; a still-empty buffer
raises `ProfileNotFoundError` with the joined failure reasons. -/
def scrape_instagram_profile (env : OrchestratorEnv) (pm0 : ProxyManager) : OrchResult :=
  match proxyLoop env env.proxy_retry_limit 0 pm0 [] [] with
  | .terminalRL pm reasons trace =>
      { final := .rateLimitedErr, proxyRuns := trace, direct := none
        pm := pm, reasons := reasons }
  | .terminalNF pm reasons trace =>
      { final := .notFoundFromSpider, proxyRuns := trace, direct := none
        pm := pm, reasons := reasons }
  | .exited (some rec) pm reasons trace =>
      { final := .ok rec, proxyRuns := trace, direct := none
        pm := pm, reasons := reasons }
  | .exited none pm reasons trace =>
      match env.directRun with
      | .completed (some rec) =>
          { final := .ok rec, proxyRuns := trace, direct := some env.directRun
            pm := pm, reasons := reasons }
      | .completed none =>
          { final := .notFoundAggregated reasons, proxyRuns := trace
            direct := some env.directRun, pm := pm, reasons := reasons }
      | .notFound =>
          { final := .notFoundFromSpider, proxyRuns := trace
            direct := some env.directRun, pm := pm, reasons := reasons }
      | .rateLimited =>
          { final := .rateLimitedErr, proxyRuns := trace
            direct := some env.directRun, pm := pm, reasons := reasons }
      | .timeout =>
          { final := .runtimeErr, proxyRuns := trace
            direct := some env.directRun, pm := pm
            reasons := reasons ++ ["Direct connection timeout"] }
      | .unexpected msg =>
          { final := .notFoundDirectError msg, proxyRuns := trace
            direct := some env.directRun, pm := pm
            reasons := reasons ++ ["Direct connection error: " ++ msg] }

/-- The proxy-run trace a loop exit carries. -/
def LoopExit.runs : LoopExit → List (String × SpiderOutcome)
  | .terminalRL _ _ t => t
  | .terminalNF _ _ t => t
  | .exited _ _ _ t => t

/-- The `failure_reasons` entry one proxy attempt contributes (timeouts and
unexpected errors only, mirroring lines 123 and 135). -/
def attemptReason : String × SpiderOutcome → Option String
  | (h, .timeout) => some ("Proxy timeout via " ++ h)
  | (h, .unexpected m) => some ("Proxy " ++ h ++ " unexpected error: " ++ m)
  | _ => none

/-- A one-host pool with an empty cooldown map, for concrete runs. -/
def pmSingle : ProxyManager := ⟨["p"], []⟩

/-- Environment whose first proxy run hits HTTP 429 (rate limited). -/
def envRateLimited : OrchestratorEnv :=
  ⟨2, fun h => some ("socks5://" ++ h), fun _ => true, fun _ => .rateLimited,
    .completed none, fun _ => [], 0⟩

/-- Environment whose first proxy run raises the strategy-confirmed
`ProfileNotFound`. -/
def envProfileMissing : OrchestratorEnv :=
  ⟨2, fun h => some ("socks5://" ++ h), fun _ => true, fun _ => .notFound,
    .completed none, fun _ => [], 0⟩

/-- Environment where every attempt, proxy and direct, times out. -/
def envAllTimeout : OrchestratorEnv :=
  ⟨1, fun h => some ("socks5://" ++ h), fun _ => true, fun _ => .timeout,
    .timeout, fun _ => [], 0⟩

/-- Environment where the one proxy attempt times out and the direct
attempt completes without having extracted a record. -/
def envDirectEmpty : OrchestratorEnv :=
  ⟨1, fun h => some ("socks5://" ++ h), fun _ => true, fun _ => .timeout,
    .completed none, fun _ => [], 0⟩

theorem scanLoop_eligible (now : ℚ) (bad : List (String × ℚ)) :
    ∀ (fuel : Nat) (pool p : List String) (h : String),
      scanLoop now bad pool fuel = (some h, p) → hostSkipped bad now h = false := by
  intro fuel
  induction fuel with
  | zero =>
      intro pool p h heq
      simp [scanLoop] at heq
  | succ n ih =>
      intro pool p h heq
      cases pool with
      | nil => simp [scanLoop] at heq
      | cons h0 t =>
          rw [scanLoop] at heq
          by_cases hs : hostSkipped bad now h0 = true
          · rw [if_pos hs] at heq
            exact ih _ _ _ heq
          · rw [if_neg hs] at heq
            rw [Prod.mk.injEq] at heq
            obtain ⟨h1, -⟩ := heq
            cases h1
            simpa using hs

theorem scanLoop_finds (now : ℚ) (bad : List (String × ℚ)) :
    ∀ (fuel : Nat) (pool : List String) (i : Nat) (hf : i < fuel)
      (hl : i < pool.length),
      hostSkipped bad now pool[i] = false →
      ∃ h p, scanLoop now bad pool fuel = (some h, p) := by
  intro fuel
  induction fuel with
  | zero =>
      intro pool i hf
      exact absurd hf (Nat.not_lt_zero i)
  | succ n ih =>
      intro pool i hf hl hskip
      cases pool with
      | nil => simp at hl
      | cons h0 t =>
          rw [scanLoop]
          by_cases hs : hostSkipped bad now h0 = true
          · rw [if_pos hs]
            cases i with
            | zero => simp at hskip; rw [hskip] at hs; exact absurd hs (by simp)
            | succ j =>
                have hjl : j < t.length := by simpa using hl
                have hjl2 : j < (t ++ [h0]).length := by
                  simp; omega
                apply ih (t ++ [h0]) j (by omega) hjl2
                have : (t ++ [h0])[j] = t[j] := List.getElem_append_left hjl
                rw [this]
                simpa using hskip
          · rw [if_neg hs]
            exact ⟨h0, t ++ [h0], rfl⟩

theorem mark_bad_lookup_self (pm : ProxyManager) (host : String) (now cd : ℚ) :
    List.lookup host (mark_bad pm host now cd).badHosts = some (now + cd) := by
  simp [mark_bad, List.lookup]

/-- Claim C1 (corrected).  After `mark_bad(E, d)` with d > 0 and while d
has not elapsed, `get_next_host` never returns E, PROVIDED some endpoint of
the ring is currently eligible.  (The original claim also covered the
all-in-cooldown case; see the counterexample.) -/
theorem c1_cooldown_never_selected_while_eligible
    (pm : ProxyManager) (e : String) (now d t : ℚ) (refresh : List String)
    (hnow : 0 ≤ now) (hd : 0 < d) (ht0 : now ≤ t) (ht : t < now + d)
    (i : Nat) (hi : i < pm.pool.length)
    (helig : hostSkipped (mark_bad pm e now d).badHosts t pm.pool[i] = false) :
    (get_next_host t refresh (mark_bad pm e now d)).1 ≠ some e := by
  set pm1 := mark_bad pm e now d with hpm1
  have hpool : pm1.pool = pm.pool := rfl
  have hskipE : hostSkipped pm1.badHosts t e = true := by
    rw [hostSkipped, mark_bad_lookup_self]
    simp only [Bool.and_eq_true, decide_eq_true_eq]
    constructor
    · intro h0
      rw [h0] at ht
      exact absurd (lt_of_le_of_lt hnow (lt_of_le_of_lt ht0 ht)) (lt_irrefl 0)
    · exact ht
  obtain ⟨h, p, hscan⟩ := scanLoop_finds t pm1.badHosts (pm1.pool.length + 1) pm1.pool i
    (by rw [hpool]; omega) (by rw [hpool]; exact hi) (by rw [hpool] at *; exact helig)
  have hne : h ≠ e := by
    intro hcontra
    have := scanLoop_eligible t pm1.badHosts _ _ _ _ hscan
    rw [hcontra] at this
    rw [this] at hskipE
    cases hskipE
  rw [get_next_host, hscan]
  simpa using hne

/-- Witness for C1: with pool [e, a] and only e marked bad at time 0 for
300 s, selection at time 100 does not return e. -/
theorem c1_witness :
    (get_next_host 100 [] (mark_bad ⟨["e", "a"], []⟩ "e" 0 300)).1 ≠ some "e" := by
  apply c1_cooldown_never_selected_while_eligible ⟨["e", "a"], []⟩ "e" 0 300 100 [] (by norm_num) (by norm_num)
    (by norm_num) (by norm_num) 1 (by simp)
  rfl

/-- Counterexample for C1 as stated: with a single endpoint e marked bad
at time 0 for 300 s, `get_next_host` at time 100 (inside the cooldown
window) still returns e — the post-scan fallback of lines 71-73 returns the
deque front without re-checking the cooldown. -/
theorem c1_counterexample :
    0 < (300 : ℚ) ∧ (0 : ℚ) ≤ 100 ∧ (100 : ℚ) < 0 + 300 ∧
      (get_next_host 100 [] (mark_bad ⟨["e"], []⟩ "e" 0 300)).1 = some "e" := by
  refine ⟨by norm_num, by norm_num, by norm_num, ?_⟩
  norm_num [get_next_host, scanLoop, hostSkipped, mark_bad, List.lookup]

theorem scanLoop_length (now : ℚ) (bad : List (String × ℚ)) :
    ∀ (fuel : Nat) (pool : List String),
      ((scanLoop now bad pool fuel).2).length = pool.length := by
  intro fuel
  induction fuel with
  | zero => intro pool; cases pool <;> rfl
  | succ n ih =>
      intro pool
      cases pool with
      | nil => rfl
      | cons h0 t =>
          rw [scanLoop]
          by_cases hs : hostSkipped bad now h0 = true
          · rw [if_pos hs, ih]
            simp
          · rw [if_neg hs]
            simp

/-- Claim C4 (corrected).  The pool refresh is triggered only when the
ring is EMPTY at entry (then the fetched candidates are appended and the
new front returned, or None when none arrived); a full scan of a non-empty
ring that finds no eligible endpoint performs no refresh and returns the
rotated front regardless of its cooldown, never None. -/
theorem c4_refresh_only_when_ring_empty (now : ℚ) (refresh : List String) (bad : List (String × ℚ))
    (h : String) (t : List String) :
    (get_next_host now refresh ⟨[], bad⟩ =
      match refresh with
      | [] => (none, ⟨[], bad⟩)
      | r :: rs => (some r, ⟨rs ++ [r], bad⟩))
    ∧ get_next_host now refresh ⟨h :: t, bad⟩ = get_next_host now [] ⟨h :: t, bad⟩
    ∧ (get_next_host now refresh ⟨h :: t, bad⟩).1.isSome = true := by
  have hmain : ∀ (rf : List String),
      get_next_host now rf ⟨h :: t, bad⟩ = get_next_host now [] ⟨h :: t, bad⟩ ∧
      (get_next_host now rf ⟨h :: t, bad⟩).1.isSome = true := by
    intro rf
    have hlen := scanLoop_length now bad ((h :: t).length + 1) (h :: t)
    rw [get_next_host, get_next_host]
    rcases hscan : scanLoop now bad (h :: t) ((h :: t).length + 1) with ⟨o, p⟩
    rw [hscan] at hlen
    simp only at hlen
    have hp : p ≠ [] := by
      intro hcon
      rw [hcon] at hlen
      simp at hlen
    cases o with
    | some hh => simp
    | none =>
        cases p with
        | nil => exact absurd rfl hp
        | cons a b => exact ⟨rfl, rfl⟩
  refine ⟨?_, (hmain refresh).1, (hmain refresh).2⟩
  cases refresh with
  | nil => rfl
  | cons r rs => rfl

theorem isAdvance_iff (s : StepResult) : s.isAdvance = true ↔ s = .advance := by
  cases s <;> simp [StepResult.isAdvance]

/-- Claim C2 (confirmed).  The strategies run in the fixed order mobile,
web API, legacy JSON, HTML, and each later strategy runs if and only if
every earlier one produced the advance signal. -/
theorem c2_chain_order (unesc udec : String → String) (username : String) (inp : ChainInput) :
    ((runChain unesc udec username inp).2 = [.mobile] ∨
      (runChain unesc udec username inp).2 = [.mobile, .webApi] ∨
      (runChain unesc udec username inp).2 = [.mobile, .webApi, .legacyJson] ∨
      (runChain unesc udec username inp).2 = [.mobile, .webApi, .legacyJson, .html]) ∧
    (Strategy.webApi ∈ (runChain unesc udec username inp).2 ↔
      (parse_mobile_api username inp.mobileResp).isAdvance = true) ∧
    (Strategy.legacyJson ∈ (runChain unesc udec username inp).2 ↔
      ((parse_mobile_api username inp.mobileResp).isAdvance = true ∧
        (parse_api_v1 username inp.webResp).isAdvance = true)) ∧
    (Strategy.html ∈ (runChain unesc udec username inp).2 ↔
      ((parse_mobile_api username inp.mobileResp).isAdvance = true ∧
        (parse_api_v1 username inp.webResp).isAdvance = true ∧
        (parse_legacy_json username inp.legacyResp).isAdvance = true)) := by
  cases h1 : parse_mobile_api username inp.mobileResp <;>
    cases h2 : parse_api_v1 username inp.webResp <;>
      cases h3 : parse_legacy_json username inp.legacyResp <;>
        simp [runChain, h1, h2, h3, StepResult.isAdvance]

theorem parse_mobile_api_404 (u : String) (r : Response) (h : r.status = 404) :
    parse_mobile_api u r = .notFound .profileMissing := by
  rw [parse_mobile_api, if_pos h]

theorem parse_api_v1_404 (u : String) (r : Response) (h : r.status = 404) :
    parse_api_v1 u r = .notFound .profileMissing := by
  rw [parse_api_v1, if_pos h]

theorem parse_legacy_json_404 (u : String) (r : Response) (h : r.status = 404) :
    parse_legacy_json u r = .notFound .profileMissing := by
  rw [parse_legacy_json, if_pos h]

theorem parse_html_404 (unesc udec : String → String) (u : String) (r : HtmlResponse)
    (h : r.status = 404) :
    parse_html unesc udec u r = .notFound .profileMissing := by
  rw [parse_html, if_pos h]

/-- Claim C5 (confirmed).  An HTTP 404 at any of the four strategy stages
immediately yields the NotFound classification, for every response body,
and the chain stops at that stage. -/
theorem c5_http404_terminal (unesc udec : String → String) (username text : String)
    (payload : Option Json) (scan : HtmlScan) (inp : ChainInput) :
    parse_mobile_api username ⟨404, text, payload⟩ = .notFound .profileMissing ∧
    parse_api_v1 username ⟨404, text, payload⟩ = .notFound .profileMissing ∧
    parse_legacy_json username ⟨404, text, payload⟩ = .notFound .profileMissing ∧
    parse_html unesc udec username ⟨404, scan⟩ = .notFound .profileMissing ∧
    (inp.mobileResp.status = 404 →
      runChain unesc udec username inp = (.notFound .profileMissing, [.mobile])) ∧
    ((parse_mobile_api username inp.mobileResp).isAdvance = true →
      inp.webResp.status = 404 →
      runChain unesc udec username inp = (.notFound .profileMissing, [.mobile, .webApi])) ∧
    ((parse_mobile_api username inp.mobileResp).isAdvance = true →
      (parse_api_v1 username inp.webResp).isAdvance = true →
      inp.legacyResp.status = 404 →
      runChain unesc udec username inp =
        (.notFound .profileMissing, [.mobile, .webApi, .legacyJson])) ∧
    ((parse_mobile_api username inp.mobileResp).isAdvance = true →
      (parse_api_v1 username inp.webResp).isAdvance = true →
      (parse_legacy_json username inp.legacyResp).isAdvance = true →
      inp.htmlResp.status = 404 →
      runChain unesc udec username inp =
        (.notFound .profileMissing, [.mobile, .webApi, .legacyJson, .html])) := by
  refine ⟨parse_mobile_api_404 _ _ rfl, parse_api_v1_404 _ _ rfl,
    parse_legacy_json_404 _ _ rfl, parse_html_404 _ _ _ _ rfl, ?_, ?_, ?_, ?_⟩
  · intro hst
    rw [runChain, parse_mobile_api_404 _ _ hst]
  · intro h1 hst
    rw [isAdvance_iff] at h1
    rw [runChain, h1, parse_api_v1_404 _ _ hst]
  · intro h1 h2 hst
    rw [isAdvance_iff] at h1
    rw [isAdvance_iff] at h2
    rw [runChain, h1, h2, parse_legacy_json_404 _ _ hst]
  · intro h1 h2 h3 hst
    rw [isAdvance_iff] at h1
    rw [isAdvance_iff] at h2
    rw [isAdvance_iff] at h3
    rw [runChain, h1, h2, h3, parse_html_404 _ _ _ _ hst]

/-- Claim C10 (confirmed).  In the legacy-JSON three-shape lookup, a
payload whose items key holds an empty list (and no graphql or data user)
makes the items[0] access partial: the lookup raises instead of returning a
user or an advance signal. -/
theorem c10_legacy_items_empty_partial :
    legacyUser (.obj [("items", .arr [])]) = .error () ∧
    parse_legacy_json "alice" ⟨200, "ok", some (.obj [("items", .arr [])])⟩ = .pyError :=
  ⟨rfl, rfl⟩

theorem build_result_username (u : String) (user : Json) (rec : ProfileRecord)
    (h : build_result_from_user u user = .ok rec) : rec.username = u := by
  cases user <;> simp only [build_result_from_user] at h <;>
    first
      | (cases h)
      | (split at h
         · cases h
         · split at h
           · cases h
           · cases h
             rfl)

theorem regexExtract_username (unesc udec : String → String) (u : String)
    (s : HtmlScan) (rec : ProfileRecord)
    (h : regexExtract unesc udec u s = some rec) : rec.username = u := by
  rw [regexExtract] at h
  split at h
  · cases h
  · cases h
    rfl

theorem extract_username (unesc udec : String → String) (u : String)
    (s : HtmlScan) (rec : ProfileRecord)
    (h : extract_from_html unesc udec u s = .ok (some rec)) : rec.username = u := by
  rw [extract_from_html] at h
  split at h
  · exact regexExtract_username unesc udec u s rec (Except.ok.inj h)
  · split at h
    · split at h
      · cases h
      · split at h
        · split at h
          · cases h
            exact build_result_username _ _ _ (by assumption)
          · cases h
        · exact regexExtract_username unesc udec u s rec (Except.ok.inj h)
    · exact regexExtract_username unesc udec u s rec (Except.ok.inj h)

theorem finishUser_username (u : String) (j : Json) (rec : ProfileRecord)
    (h : finishUser u j = .success rec) : rec.username = u := by
  rw [finishUser] at h
  split at h
  · split at h
    · cases h
      exact build_result_username u j _ (by assumption)
    · cases h
  · cases h

theorem parse_mobile_api_username (u : String) (r : Response) (rec : ProfileRecord)
    (h : parse_mobile_api u r = .success rec) : rec.username = u := by
  rw [parse_mobile_api] at h
  split at h
  · cases h
  · split at h
    · cases h
    · split at h
      · split at h
        · cases h
        · exact finishUser_username _ _ _ h
      · cases h

theorem parse_api_v1_username (u : String) (r : Response) (rec : ProfileRecord)
    (h : parse_api_v1 u r = .success rec) : rec.username = u := by
  rw [parse_api_v1] at h
  split at h
  · cases h
  · split at h
    · cases h
    · split at h
      · split at h
        · cases h
        · exact finishUser_username _ _ _ h
      · cases h

theorem parse_legacy_json_username (u : String) (r : Response) (rec : ProfileRecord)
    (h : parse_legacy_json u r = .success rec) : rec.username = u := by
  rw [parse_legacy_json] at h
  split at h
  · cases h
  · split at h
    · cases h
    · split at h
      · cases h
      · split at h
        · cases h
        · split at h
          · cases h
          · exact finishUser_username _ _ _ h

theorem parse_html_username (unesc udec : String → String) (u : String)
    (r : HtmlResponse) (rec : ProfileRecord)
    (h : parse_html unesc udec u r = .success rec) : rec.username = u := by
  rw [parse_html] at h
  split at h
  · cases h
  · split at h
    · cases h
    · split at h
      · cases h
      · cases h
      · cases h
        exact extract_username unesc udec u r.scan rec (by assumption)

theorem dropWhile_head_not (p : Char → Bool) :
    ∀ (l : List Char) (c : Char), (l.dropWhile p).head? = some c → p c = false := by
  intro l
  induction l with
  | nil => intro c h; simp [List.dropWhile] at h
  | cons a t ih =>
      intro c h
      rw [List.dropWhile] at h
      by_cases hpa : p a = true
      · rw [hpa] at h
        exact ih c h
      · rw [Bool.not_eq_true] at hpa
        rw [hpa] at h
        simp at h
        exact h ▸ hpa

/-- Claim C9 (corrected).  Every record a chain run produces carries the
handle `username.strip().lstrip("@")` — so it never starts with `@` — but
the source never lowercases it, contradicting the lowercase part of the
claim (see the counterexample). -/
theorem c9_handle_normalization (unesc udec : String → String) (raw : String) (inp : ChainInput)
    (rec : ProfileRecord)
    (hrun : (runChain unesc udec (spider_username raw) inp).1 = .success rec) :
    rec.username = spider_username raw ∧
    ∀ c, rec.username.data.head? = some c → c ≠ '@' := by
  have husr : rec.username = spider_username raw := by
    rw [runChain] at hrun
    split at hrun
    · split at hrun
      · split at hrun
        · exact parse_html_username _ _ _ _ _ hrun
        · exact parse_legacy_json_username _ _ _ hrun
      · exact parse_api_v1_username _ _ _ hrun
    · exact parse_mobile_api_username _ _ _ hrun
  refine ⟨husr, ?_⟩
  intro c hc
  rw [husr] at hc
  have hd : decide (c = '@') = false := by
    apply dropWhile_head_not (fun ch => decide (ch = '@')) (pyStrip raw).data c
    simpa [spider_username] using hc
  simpa using hd

/-- Witness for C9: input "@Bob" yields records with handle "Bob", which
does not start with `@`. -/
theorem c9_witness :
    (⟨"Bob", .str "N", .null, 0, .null⟩ : ProfileRecord).username = spider_username "@Bob" ∧
    ∀ c, (⟨"Bob", .str "N", .null, 0, .null⟩ : ProfileRecord).username.data.head? = some c →
      c ≠ '@' :=
  c9_handle_normalization id id "@Bob"
    ⟨⟨200, "x", some (.obj [("data", .obj [("user", .obj [("full_name", .str "N")])])])⟩,
      ⟨200, "", none⟩, ⟨200, "", none⟩, ⟨200, ⟨none, none, none, none, none⟩⟩⟩
    ⟨"Bob", .str "N", .null, 0, .null⟩ rfl

/-- Counterexample for C9 as stated: input "A" yields a record whose
handle is the uppercase string "A", not a lowercase string. -/
theorem c9_counterexample :
    (runChain id id (spider_username "A")
        ⟨⟨200, "x", some (.obj [("data", .obj [("user", .obj [("full_name", .str "N")])])])⟩,
          ⟨200, "", none⟩, ⟨200, "", none⟩, ⟨200, ⟨none, none, none, none, none⟩⟩⟩).1 =
      .success ⟨"A", .str "N", .null, 0, .null⟩ ∧
    "A".data = ['A'] ∧ 'A'.isUpper = true :=
  ⟨rfl, rfl, rfl⟩

/-- Claim C6 (corrected).  Followers equal the numeric count under
edge_followed_by (including the two concrete spec examples, null count and
count 1234) and default to 0 when the key or count is absent or null; a
truthy count that Python int() cannot convert raises instead of defaulting
to 0, and a negative numeric count is stored as-is, so the field is NOT
always non-negative (see the counterexample). -/
theorem c6_followers_normalization (name : String) (fields efbf : List (String × Json))
    (n : Int) (c : Json) :
    (build_result_from_user name (.obj [("edge_followed_by", .null)]) =
      .ok ⟨name, .null, .null, 0, .null⟩) ∧
    (build_result_from_user name (.obj [("edge_followed_by", .obj [("count", .num 1234)])]) =
      .ok ⟨name, .null, .null, 1234, .null⟩) ∧
    (List.lookup "edge_followed_by" fields = some (.obj efbf) →
      List.lookup "count" efbf = some (.num n) →
      ∃ rec, build_result_from_user name (.obj fields) = .ok rec ∧ rec.followers = n) ∧
    (List.lookup "edge_followed_by" fields = none →
      ∃ rec, build_result_from_user name (.obj fields) = .ok rec ∧ rec.followers = 0) ∧
    (List.lookup "edge_followed_by" fields = some .null →
      ∃ rec, build_result_from_user name (.obj fields) = .ok rec ∧ rec.followers = 0) ∧
    (List.lookup "edge_followed_by" fields = some (.obj efbf) →
      List.lookup "count" efbf = some c → c.truthy = true → pyInt c = none →
      build_result_from_user name (.obj fields) = .error ()) := by
  refine ⟨rfl, rfl, ?_, ?_, ?_, ?_⟩
  · intro h1 h2
    have htr : (Json.obj efbf).truthy = true := by
      cases efbf with
      | nil => simp [List.lookup] at h2
      | cons a b => simp [Json.truthy]
    rw [build_result_from_user, h1]
    simp only [Option.getD_some, pyOr, htr, if_true, Json.dget, h2, Option.getD_some]
    by_cases hn : n = 0
    · subst hn
      simp [Json.truthy, pyInt]
    · have : (Json.num n).truthy = true := by
        simp [Json.truthy]
        exact hn
      simp [this, pyInt]
  · intro h1
    rw [build_result_from_user, h1]
    simp [pyOr, Json.truthy, Json.dget, List.lookup, pyInt]
  · intro h1
    rw [build_result_from_user, h1]
    simp [pyOr, Json.truthy, Json.dget, List.lookup, pyInt]
  · intro h1 h2 htr hpy
    have htro : (Json.obj efbf).truthy = true := by
      cases efbf with
      | nil => simp [List.lookup] at h2
      | cons a b => simp [Json.truthy]
    rw [build_result_from_user, h1]
    simp [pyOr, Json.dget, htro, h2, htr, hpy]

/-- Witness for C6: a count of 7 produces a record with followers 7. -/
theorem c6_witness :
    ∃ rec, build_result_from_user "x"
        (.obj [("edge_followed_by", .obj [("count", .num 7)])]) = .ok rec ∧
      rec.followers = 7 :=
  (c6_followers_normalization "x" [("edge_followed_by", .obj [("count", .num 7)])]
      [("count", .num 7)] 7 .null).2.2.1 rfl rfl

/-- Counterexample for C6 as stated: a count of -5 produces a record
whose followers field is negative, contradicting the non-negativity the
claim asserts. -/
theorem c6_counterexample :
    build_result_from_user "x" (.obj [("edge_followed_by", .obj [("count", .num (-5))])]) =
      .ok ⟨"x", .null, .null, -5, .null⟩ ∧ (-5 : Int) < 0 :=
  ⟨rfl, by norm_num⟩

theorem regexExtract_none_iff (unesc udec : String → String) (u : String) (s : HtmlScan) :
    regexExtract unesc udec u s = none ↔
      ((s.followersMatch = none ∨ s.followersMatch = some 0) ∧
        (s.picMatch = none ∨
          ∃ raw, s.picMatch = some raw ∧
            (unesc (udec raw)).replace "\x5cu0026" "&" = "")) := by
  rw [regexExtract]
  split
  · rename_i hcond
    simp only [true_iff]
    obtain ⟨hf, hp⟩ := hcond
    constructor
    · cases hm : s.followersMatch with
      | none => exact Or.inl rfl
      | some k =>
          right
          rw [hm] at hf
          simp only [Int.natCast_eq_zero] at hf
          rw [hf]
    · cases hm : s.picMatch with
      | none => exact Or.inl rfl
      | some raw =>
          right
          refine ⟨raw, rfl, ?_⟩
          rw [hm] at hp
          simpa using hp
  · rename_i hcond
    constructor
    · intro hcontra
      simp at hcontra
    · intro hboth
      exfalso
      apply hcond
      obtain ⟨hf, hp⟩ := hboth
      constructor
      · cases hf with
        | inl h => rw [h]
        | inr h => rw [h]; rfl
      · cases hp with
        | inl h => rw [h]; rfl
        | inr h =>
            obtain ⟨raw, hraw, hempty⟩ := h
            rw [hraw]
            simpa using hempty

/-- Claim C7 (corrected).  In the HTML strategy, when the blob is absent,
falsy, or holds no truthy user, the outcome is decided by the regex
extraction, which fails exactly when the follower capture is missing or 0
and the picture capture is missing or decodes to an empty string — failure
is the terminal NotFound with the unable-to-extract reason, success is a
record; a truthy blob user that builds a record yields it.  BUT a malformed
blob (or a record build that raises) escapes as an unexpected exception
instead of NotFound (see the counterexample). -/
theorem c7_html_extraction_outcome (unesc udec : String → String) (u : String) (scan : HtmlScan)
    (payload user : Json) (rec : ProfileRecord) :
    (scan.blob = none →
      parse_html unesc udec u ⟨200, scan⟩ =
        match regexExtract unesc udec u scan with
        | none => .notFound .unableToExtract
        | some r => .success r) ∧
    (scan.blob = some payload → payload.truthy = false →
      parse_html unesc udec u ⟨200, scan⟩ =
        match regexExtract unesc udec u scan with
        | none => .notFound .unableToExtract
        | some r => .success r) ∧
    (scan.blob = some payload → payload.truthy = true → blobUser payload = .ok user →
      user.truthy = false →
      parse_html unesc udec u ⟨200, scan⟩ =
        match regexExtract unesc udec u scan with
        | none => .notFound .unableToExtract
        | some r => .success r) ∧
    (scan.blob = some payload → payload.truthy = true → blobUser payload = .ok user →
      user.truthy = true → build_result_from_user u user = .ok rec →
      parse_html unesc udec u ⟨200, scan⟩ = .success rec) ∧
    (regexExtract unesc udec u scan = none ↔
      ((scan.followersMatch = none ∨ scan.followersMatch = some 0) ∧
        (scan.picMatch = none ∨
          ∃ raw, scan.picMatch = some raw ∧
            (unesc (udec raw)).replace "\x5cu0026" "&" = ""))) := by
  have h200 : parse_html unesc udec u ⟨200, scan⟩ =
      match extract_from_html unesc udec u scan with
      | .error _ => .pyError
      | .ok none => .notFound .unableToExtract
      | .ok (some r) => .success r := rfl
  have hfall : ∀ o : Option ProfileRecord,
      (match (Except.ok o : Except Unit (Option ProfileRecord)) with
        | .error _ => StepResult.pyError
        | .ok none => .notFound .unableToExtract
        | .ok (some r) => .success r) =
      (match o with
        | none => StepResult.notFound .unableToExtract
        | some r => .success r) := by
    intro o
    cases o <;> rfl
  refine ⟨?_, ?_, ?_, ?_, regexExtract_none_iff unesc udec u scan⟩
  · intro hblob
    rw [h200, extract_from_html, hblob]
    exact hfall _
  · intro hblob htr
    rw [h200, extract_from_html, hblob]
    simp only [htr, Bool.false_eq_true, if_false]
    exact hfall _
  · intro hblob htr hbu hut
    rw [h200, extract_from_html, hblob]
    simp only [htr, if_true, hbu, hut, Bool.false_eq_true, if_false]
    exact hfall _
  · intro hblob htr hbu hut hbr
    rw [h200, extract_from_html, hblob]
    simp only [htr, if_true, hbu, hut, hbr]

/-- Witness for C7: no blob and a follower capture of 5 produce a
record. -/
theorem c7_witness :
    parse_html id id "u" ⟨200, ⟨none, some 5, none, none, none⟩⟩ =
      .success ⟨"u", .null, .null, 5, .null⟩ := by
  have h := (c7_html_extraction_outcome id id "u" ⟨none, some 5, none, none, none⟩ .null .null
    ⟨"u", .null, .null, 0, .null⟩).1 rfl
  rw [h]
  rfl

/-- Counterexample for C7 as stated: a blob whose ProfilePage list is
empty makes the lookup raise (IndexError), so the outcome is neither a
NotFound nor a record. -/
theorem c7_counterexample :
    parse_html id id "u"
        ⟨200, ⟨some (.obj [("entry_data", .obj [("ProfilePage", .arr [])])]),
          none, none, none, none⟩⟩ = .pyError ∧
    (∀ reason, StepResult.pyError ≠ .notFound reason) ∧
    (∀ rec, StepResult.pyError ≠ .success rec) :=
  ⟨rfl, by intro r; simp, by intro r; simp⟩

theorem proxyLoop_runs_length (env : OrchestratorEnv) :
    ∀ (fuel k : Nat) (pm : ProxyManager) (reasons : List String)
      (trace : List (String × SpiderOutcome)),
      (proxyLoop env fuel k pm reasons trace).runs.length ≤ trace.length + fuel := by
  intro fuel
  induction fuel with
  | zero =>
      intro k pm reasons trace
      simp [proxyLoop, LoopExit.runs]
  | succ n ih =>
      intro k pm reasons trace
      rw [proxyLoop]
      rcases hg : get_next_host env.now (env.refreshHosts k) pm with ⟨o, pm1⟩
      cases o with
      | none =>
          simp only [LoopExit.runs]
          omega
      | some host =>
          cases hu : env.socks5_url host with
          | none =>
              simp only [hu, LoopExit.runs]
              omega
          | some url =>
              simp only [hu]
              by_cases hr : env.reachable url = true
              · rw [if_pos hr]
                cases hp : env.proxyRun k with
                | completed rec =>
                    simp only [hp, LoopExit.runs]
                    simp
                | timeout =>
                    simp only [hp]
                    have := ih (k + 1) (mark_bad pm1 host env.now 600)
                      (reasons ++ ["Proxy timeout via " ++ host])
                      (trace ++ [(host, .timeout)])
                    simp only [List.length_append, List.length_cons,
                      List.length_nil] at this ⊢
                    omega
                | rateLimited =>
                    simp only [hp, LoopExit.runs]
                    simp
                | notFound =>
                    simp only [hp, LoopExit.runs]
                    simp
                | unexpected m =>
                    simp only [hp]
                    have := ih (k + 1) (mark_bad pm1 host env.now 600)
                      (reasons ++ ["Proxy " ++ host ++ " unexpected error: " ++ m])
                      (trace ++ [(host, .unexpected m)])
                    simp only [List.length_append, List.length_cons,
                      List.length_nil] at this ⊢
                    omega
              · rw [if_neg hr]
                have := ih (k + 1) (mark_bad pm1 host env.now 600) reasons trace
                omega

theorem proxyLoop_terminalRL (env : OrchestratorEnv) :
    ∀ (fuel k : Nat) (pm : ProxyManager) (reasons : List String)
      (trace : List (String × SpiderOutcome)) (pm2 : ProxyManager)
      (reasons2 : List String) (trace2 : List (String × SpiderOutcome)),
      proxyLoop env fuel k pm reasons trace = .terminalRL pm2 reasons2 trace2 →
      ∃ pre host, trace2 = trace ++ (pre ++ [(host, .rateLimited)]) ∧
        (∀ e ∈ pre, e.2 = .timeout ∨ ∃ m, e.2 = .unexpected m) ∧
        List.lookup host pm2.badHosts = some (env.now + 600) := by
  intro fuel
  induction fuel with
  | zero =>
      intro k pm reasons trace pm2 reasons2 trace2 heq
      simp [proxyLoop] at heq
  | succ n ih =>
      intro k pm reasons trace pm2 reasons2 trace2 heq
      rw [proxyLoop] at heq
      rcases hg : get_next_host env.now (env.refreshHosts k) pm with ⟨o, pm1⟩
      rw [hg] at heq
      cases o with
      | none => simp at heq
      | some host =>
          dsimp only at heq
          cases hu : env.socks5_url host with
          | none => rw [hu] at heq; simp at heq
          | some url =>
              rw [hu] at heq
              dsimp only at heq
              by_cases hr : env.reachable url = true
              · rw [if_pos hr] at heq
                cases hp : env.proxyRun k with
                | completed rec => rw [hp] at heq; simp at heq
                | timeout =>
                    rw [hp] at heq
                    obtain ⟨pre, host2, h1, h2, h3⟩ := ih _ _ _ _ _ _ _ heq
                    refine ⟨(host, .timeout) :: pre, host2, ?_, ?_, h3⟩
                    · rw [h1]; simp
                    · intro e he
                      cases he with
                      | head => exact Or.inl rfl
                      | tail _ hmem => exact h2 e hmem
                | rateLimited =>
                    rw [hp] at heq
                    cases heq
                    refine ⟨[], host, by simp, by simp, ?_⟩
                    exact mark_bad_lookup_self pm1 host env.now 600
                | notFound => rw [hp] at heq; simp at heq
                | unexpected m =>
                    rw [hp] at heq
                    obtain ⟨pre, host2, h1, h2, h3⟩ := ih _ _ _ _ _ _ _ heq
                    refine ⟨(host, .unexpected m) :: pre, host2, ?_, ?_, h3⟩
                    · rw [h1]; simp
                    · intro e he
                      cases he with
                      | head => exact Or.inr ⟨m, rfl⟩
                      | tail _ hmem => exact h2 e hmem
              · rw [if_neg hr] at heq
                exact ih _ _ _ _ _ _ _ heq

theorem proxyLoop_terminalNF (env : OrchestratorEnv) :
    ∀ (fuel k : Nat) (pm : ProxyManager) (reasons : List String)
      (trace : List (String × SpiderOutcome)) (pm2 : ProxyManager)
      (reasons2 : List String) (trace2 : List (String × SpiderOutcome)),
      proxyLoop env fuel k pm reasons trace = .terminalNF pm2 reasons2 trace2 →
      ∃ pre host, trace2 = trace ++ (pre ++ [(host, .notFound)]) ∧
        (∀ e ∈ pre, e.2 = .timeout ∨ ∃ m, e.2 = .unexpected m) := by
  intro fuel
  induction fuel with
  | zero =>
      intro k pm reasons trace pm2 reasons2 trace2 heq
      simp [proxyLoop] at heq
  | succ n ih =>
      intro k pm reasons trace pm2 reasons2 trace2 heq
      rw [proxyLoop] at heq
      rcases hg : get_next_host env.now (env.refreshHosts k) pm with ⟨o, pm1⟩
      rw [hg] at heq
      cases o with
      | none => simp at heq
      | some host =>
          dsimp only at heq
          cases hu : env.socks5_url host with
          | none => rw [hu] at heq; simp at heq
          | some url =>
              rw [hu] at heq
              dsimp only at heq
              by_cases hr : env.reachable url = true
              · rw [if_pos hr] at heq
                cases hp : env.proxyRun k with
                | completed rec => rw [hp] at heq; simp at heq
                | timeout =>
                    rw [hp] at heq
                    obtain ⟨pre, host2, h1, h2⟩ := ih _ _ _ _ _ _ _ heq
                    refine ⟨(host, .timeout) :: pre, host2, ?_, ?_⟩
                    · rw [h1]; simp
                    · intro e he
                      cases he with
                      | head => exact Or.inl rfl
                      | tail _ hmem => exact h2 e hmem
                | rateLimited => rw [hp] at heq; simp at heq
                | notFound =>
                    rw [hp] at heq
                    cases heq
                    exact ⟨[], host, by simp, by simp⟩
                | unexpected m =>
                    rw [hp] at heq
                    obtain ⟨pre, host2, h1, h2⟩ := ih _ _ _ _ _ _ _ heq
                    refine ⟨(host, .unexpected m) :: pre, host2, ?_, ?_⟩
                    · rw [h1]; simp
                    · intro e he
                      cases he with
                      | head => exact Or.inr ⟨m, rfl⟩
                      | tail _ hmem => exact h2 e hmem
              · rw [if_neg hr] at heq
                exact ih _ _ _ _ _ _ _ heq

theorem proxyLoop_exited (env : OrchestratorEnv) :
    ∀ (fuel k : Nat) (pm : ProxyManager) (reasons : List String)
      (trace : List (String × SpiderOutcome)) (buf : Option ProfileRecord)
      (pm2 : ProxyManager) (reasons2 : List String)
      (trace2 : List (String × SpiderOutcome)),
      proxyLoop env fuel k pm reasons trace = .exited buf pm2 reasons2 trace2 →
      ∃ new, trace2 = trace ++ new ∧
        reasons2 = reasons ++ new.filterMap attemptReason ∧
        (∀ e ∈ new, e.2 ≠ .rateLimited ∧ e.2 ≠ .notFound) ∧
        (buf = none → ∀ e ∈ new, ∀ r, e.2 ≠ .completed (some r)) ∧
        (∀ rec, buf = some rec → ∃ h2, (h2, .completed (some rec)) ∈ new) := by
  intro fuel
  induction fuel with
  | zero =>
      intro k pm reasons trace buf pm2 reasons2 trace2 heq
      rw [proxyLoop] at heq
      cases heq
      refine ⟨[], by simp, by simp [attemptReason], by simp, by simp, ?_⟩
      intro rec hrec
      cases hrec
  | succ n ih =>
      intro k pm reasons trace buf pm2 reasons2 trace2 heq
      rw [proxyLoop] at heq
      rcases hg : get_next_host env.now (env.refreshHosts k) pm with ⟨o, pm1⟩
      rw [hg] at heq
      cases o with
      | none =>
          dsimp only at heq
          cases heq
          refine ⟨[], by simp, by simp [attemptReason], by simp, by simp, ?_⟩
          intro rec hrec
          cases hrec
      | some host =>
          dsimp only at heq
          cases hu : env.socks5_url host with
          | none =>
              rw [hu] at heq
              dsimp only at heq
              cases heq
              refine ⟨[], by simp, by simp [attemptReason], by simp, by simp, ?_⟩
              intro rec hrec
              cases hrec
          | some url =>
              rw [hu] at heq
              dsimp only at heq
              by_cases hr : env.reachable url = true
              · rw [if_pos hr] at heq
                cases hp : env.proxyRun k with
                | completed rec0 =>
                    rw [hp] at heq
                    cases heq
                    refine ⟨[(host, .completed buf)], by simp, by simp [attemptReason],
                      ?_, ?_, ?_⟩
                    · intro e he
                      cases he with
                      | head => exact ⟨by simp, by simp⟩
                      | tail _ hmem => cases hmem
                    · intro hbuf e he r
                      cases he with
                      | head => simp [hbuf]
                      | tail _ hmem => cases hmem
                    · intro rec1 hbuf
                      refine ⟨host, ?_⟩
                      rw [hbuf]
                      exact List.mem_singleton.mpr rfl
                | timeout =>
                    rw [hp] at heq
                    obtain ⟨new, h1, h2, h3, h4, h5⟩ := ih _ _ _ _ _ _ _ _ heq
                    refine ⟨(host, .timeout) :: new, ?_, ?_, ?_, ?_, ?_⟩
                    · rw [h1]; simp
                    · rw [h2]; simp [attemptReason]
                    · intro e he
                      cases he with
                      | head => exact ⟨by simp, by simp⟩
                      | tail _ hmem => exact h3 e hmem
                    · intro hbuf e he r
                      cases he with
                      | head => simp
                      | tail _ hmem => exact h4 hbuf e hmem r
                    · intro rec1 hbuf
                      obtain ⟨h2x, hmem⟩ := h5 rec1 hbuf
                      exact ⟨h2x, List.mem_cons_of_mem _ hmem⟩
                | rateLimited => rw [hp] at heq; simp at heq
                | notFound => rw [hp] at heq; simp at heq
                | unexpected m =>
                    rw [hp] at heq
                    obtain ⟨new, h1, h2, h3, h4, h5⟩ := ih _ _ _ _ _ _ _ _ heq
                    refine ⟨(host, .unexpected m) :: new, ?_, ?_, ?_, ?_, ?_⟩
                    · rw [h1]; simp
                    · rw [h2]; simp [attemptReason]
                    · intro e he
                      cases he with
                      | head => exact ⟨by simp, by simp⟩
                      | tail _ hmem => exact h3 e hmem
                    · intro hbuf e he r
                      cases he with
                      | head => simp
                      | tail _ hmem => exact h4 hbuf e hmem r
                    · intro rec1 hbuf
                      obtain ⟨h2x, hmem⟩ := h5 rec1 hbuf
                      exact ⟨h2x, List.mem_cons_of_mem _ hmem⟩
              · rw [if_neg hr] at heq
                exact ih _ _ _ _ _ _ _ _ heq

theorem scrape_eq_terminalRL (env : OrchestratorEnv) (pm0 pmA : ProxyManager)
    (reasonsA : List String) (traceA : List (String × SpiderOutcome))
    (hl : proxyLoop env env.proxy_retry_limit 0 pm0 [] [] =
      .terminalRL pmA reasonsA traceA) :
    scrape_instagram_profile env pm0 =
      { final := .rateLimitedErr, proxyRuns := traceA, direct := none
        pm := pmA, reasons := reasonsA } := by
  rw [scrape_instagram_profile, hl]

theorem scrape_eq_terminalNF (env : OrchestratorEnv) (pm0 pmA : ProxyManager)
    (reasonsA : List String) (traceA : List (String × SpiderOutcome))
    (hl : proxyLoop env env.proxy_retry_limit 0 pm0 [] [] =
      .terminalNF pmA reasonsA traceA) :
    scrape_instagram_profile env pm0 =
      { final := .notFoundFromSpider, proxyRuns := traceA, direct := none
        pm := pmA, reasons := reasonsA } := by
  rw [scrape_instagram_profile, hl]

theorem scrape_eq_exited_some (env : OrchestratorEnv) (pm0 pmA : ProxyManager)
    (rec : ProfileRecord) (reasonsA : List String)
    (traceA : List (String × SpiderOutcome))
    (hl : proxyLoop env env.proxy_retry_limit 0 pm0 [] [] =
      .exited (some rec) pmA reasonsA traceA) :
    scrape_instagram_profile env pm0 =
      { final := .ok rec, proxyRuns := traceA, direct := none
        pm := pmA, reasons := reasonsA } := by
  rw [scrape_instagram_profile, hl]

theorem scrape_exited_none (env : OrchestratorEnv) (pm0 pmA : ProxyManager)
    (reasonsA : List String) (traceA : List (String × SpiderOutcome))
    (hl : proxyLoop env env.proxy_retry_limit 0 pm0 [] [] =
      .exited none pmA reasonsA traceA) :
    (scrape_instagram_profile env pm0).proxyRuns = traceA ∧
    (scrape_instagram_profile env pm0).direct = some env.directRun ∧
    (env.directRun = .completed none →
      (scrape_instagram_profile env pm0).final = .notFoundAggregated reasonsA) ∧
    (env.directRun = .timeout →
      (scrape_instagram_profile env pm0).final = .runtimeErr) := by
  rw [scrape_instagram_profile, hl]
  cases hd : env.directRun with
  | completed rec =>
      cases rec with
      | none =>
          refine ⟨rfl, rfl, fun _ => rfl, fun hcon => ?_⟩
          simp at hcon
      | some r =>
          refine ⟨rfl, rfl, fun hcon => ?_, fun hcon => ?_⟩ <;> simp at hcon
  | timeout => exact ⟨rfl, rfl, fun hcon => by simp at hcon, fun _ => rfl⟩
  | rateLimited =>
      refine ⟨rfl, rfl, fun hcon => ?_, fun hcon => ?_⟩ <;> simp at hcon
  | notFound =>
      refine ⟨rfl, rfl, fun hcon => ?_, fun hcon => ?_⟩ <;> simp at hcon
  | unexpected m =>
      refine ⟨rfl, rfl, fun hcon => ?_, fun hcon => ?_⟩ <;> simp at hcon

/-- Claim C8 (confirmed).  Both terminal classifications arising during a
proxy attempt end the orchestrator at once: a RateLimited run is the last
proxy run, no direct attempt happens, RateLimitError is raised and the
implicated host is marked bad for 600 s; a strategy-confirmed NotFound run
is likewise the last proxy run, no direct attempt happens, and
ProfileNotFoundError is raised (without marking the host bad). -/
theorem c8_terminal_classifications (env : OrchestratorEnv) (pm0 : ProxyManager)
    (host : String) :
    ((host, SpiderOutcome.rateLimited) ∈ (scrape_instagram_profile env pm0).proxyRuns →
      (scrape_instagram_profile env pm0).final = .rateLimitedErr ∧
      (scrape_instagram_profile env pm0).direct = none ∧
      List.lookup host (scrape_instagram_profile env pm0).pm.badHosts =
        some (env.now + 600) ∧
      ∃ pre, (scrape_instagram_profile env pm0).proxyRuns =
        pre ++ [(host, .rateLimited)]) ∧
    ((host, SpiderOutcome.notFound) ∈ (scrape_instagram_profile env pm0).proxyRuns →
      (scrape_instagram_profile env pm0).final = .notFoundFromSpider ∧
      (scrape_instagram_profile env pm0).direct = none ∧
      ∃ pre, (scrape_instagram_profile env pm0).proxyRuns =
        pre ++ [(host, .notFound)]) := by
  constructor
  · intro hmem
    cases hl : proxyLoop env env.proxy_retry_limit 0 pm0 [] [] with
    | terminalRL pmA reasonsA traceA =>
        rw [scrape_eq_terminalRL env pm0 pmA reasonsA traceA hl] at hmem ⊢
        obtain ⟨pre, host2, h1, h2, h3⟩ := proxyLoop_terminalRL env _ _ _ _ _ _ _ _ hl
        simp only [List.nil_append] at h1
        subst h1
        simp only at hmem
        have hhost : host = host2 := by
          rcases List.mem_append.mp hmem with hin | hin
          · rcases h2 _ hin with h | ⟨m, h⟩ <;> simp at h
          · have := List.mem_singleton.mp hin
            rw [Prod.mk.injEq] at this
            exact this.1
        subst hhost
        exact ⟨rfl, rfl, h3, pre, rfl⟩
    | terminalNF pmA reasonsA traceA =>
        rw [scrape_eq_terminalNF env pm0 pmA reasonsA traceA hl] at hmem
        obtain ⟨pre, host2, h1, h2⟩ := proxyLoop_terminalNF env _ _ _ _ _ _ _ _ hl
        simp only [List.nil_append] at h1
        subst h1
        simp only at hmem
        exfalso
        rcases List.mem_append.mp hmem with hin | hin
        · rcases h2 _ hin with h | ⟨m, h⟩ <;> simp at h
        · have := List.mem_singleton.mp hin
          rw [Prod.mk.injEq] at this
          simp at this
    | exited bufA pmA reasonsA traceA =>
        obtain ⟨new, h1, h2, h3, h4, h5⟩ := proxyLoop_exited env _ _ _ _ _ _ _ _ _ hl
        simp only [List.nil_append] at h1
        subst h1
        exfalso
        have hruns : (scrape_instagram_profile env pm0).proxyRuns = traceA := by
          cases bufA with
          | none => exact (scrape_exited_none env pm0 pmA reasonsA traceA hl).1
          | some rec =>
              rw [scrape_eq_exited_some env pm0 pmA rec reasonsA traceA hl]
        rw [hruns] at hmem
        exact (h3 _ hmem).1 rfl
  · intro hmem
    cases hl : proxyLoop env env.proxy_retry_limit 0 pm0 [] [] with
    | terminalRL pmA reasonsA traceA =>
        rw [scrape_eq_terminalRL env pm0 pmA reasonsA traceA hl] at hmem
        obtain ⟨pre, host2, h1, h2, h3⟩ := proxyLoop_terminalRL env _ _ _ _ _ _ _ _ hl
        simp only [List.nil_append] at h1
        subst h1
        simp only at hmem
        exfalso
        rcases List.mem_append.mp hmem with hin | hin
        · rcases h2 _ hin with h | ⟨m, h⟩ <;> simp at h
        · have := List.mem_singleton.mp hin
          rw [Prod.mk.injEq] at this
          simp at this
    | terminalNF pmA reasonsA traceA =>
        rw [scrape_eq_terminalNF env pm0 pmA reasonsA traceA hl] at hmem ⊢
        obtain ⟨pre, host2, h1, h2⟩ := proxyLoop_terminalNF env _ _ _ _ _ _ _ _ hl
        simp only [List.nil_append] at h1
        subst h1
        simp only at hmem
        have hhost : host = host2 := by
          rcases List.mem_append.mp hmem with hin | hin
          · rcases h2 _ hin with h | ⟨m, h⟩ <;> simp at h
          · have := List.mem_singleton.mp hin
            rw [Prod.mk.injEq] at this
            exact this.1
        subst hhost
        exact ⟨rfl, rfl, pre, rfl⟩
    | exited bufA pmA reasonsA traceA =>
        obtain ⟨new, h1, h2, h3, h4, h5⟩ := proxyLoop_exited env _ _ _ _ _ _ _ _ _ hl
        simp only [List.nil_append] at h1
        subst h1
        exfalso
        have hruns : (scrape_instagram_profile env pm0).proxyRuns = traceA := by
          cases bufA with
          | none => exact (scrape_exited_none env pm0 pmA reasonsA traceA hl).1
          | some rec =>
              rw [scrape_eq_exited_some env pm0 pmA rec reasonsA traceA hl]
        rw [hruns] at hmem
        exact (h3 _ hmem).2 rfl

/-- Witness for C8: a first-run 429 ends the orchestrator with
RateLimitError, no direct attempt, and the host cooled down; a first-run
strategy-confirmed 404 ends it with ProfileNotFoundError and no direct
attempt. -/
theorem c8_witness :
    ((scrape_instagram_profile envRateLimited pmSingle).final = .rateLimitedErr ∧
      (scrape_instagram_profile envRateLimited pmSingle).direct = none ∧
      List.lookup "p" (scrape_instagram_profile envRateLimited pmSingle).pm.badHosts =
        some (envRateLimited.now + 600) ∧
      ∃ pre, (scrape_instagram_profile envRateLimited pmSingle).proxyRuns =
        pre ++ [("p", .rateLimited)]) ∧
    ((scrape_instagram_profile envProfileMissing pmSingle).final = .notFoundFromSpider ∧
      (scrape_instagram_profile envProfileMissing pmSingle).direct = none ∧
      ∃ pre, (scrape_instagram_profile envProfileMissing pmSingle).proxyRuns =
        pre ++ [("p", .notFound)]) :=
  ⟨(c8_terminal_classifications envRateLimited pmSingle "p").1 (by
      have h : (scrape_instagram_profile envRateLimited pmSingle).proxyRuns =
          [("p", SpiderOutcome.rateLimited)] := rfl
      rw [h]
      exact List.mem_singleton.mpr rfl),
    (c8_terminal_classifications envProfileMissing pmSingle "p").2 (by
      have h : (scrape_instagram_profile envProfileMissing pmSingle).proxyRuns =
          [("p", SpiderOutcome.notFound)] := rfl
      rw [h]
      exact List.mem_singleton.mpr rfl)⟩

/-- Claim C3 (corrected).  The proxy loop performs at most
`proxy_retry_limit` spider runs; the single direct attempt happens exactly
when no proxy run succeeded or was terminal; and when the direct crawl
completes without a record the orchestrator raises NotFound carrying the
failure reasons aggregated from the proxy attempts.  BUT a direct attempt
that raises a timeout yields ScraperRuntimeError, not the aggregated
NotFound the claim describes (see the counterexample). -/
theorem c3_proxy_bound_and_direct_fallback (env : OrchestratorEnv) (pm0 : ProxyManager) :
    (scrape_instagram_profile env pm0).proxyRuns.length ≤ env.proxy_retry_limit ∧
    ((scrape_instagram_profile env pm0).direct.isSome = true ↔
      ∀ e ∈ (scrape_instagram_profile env pm0).proxyRuns,
        e.2 ≠ .rateLimited ∧ e.2 ≠ .notFound ∧ ∀ r, e.2 ≠ .completed (some r)) ∧
    ((scrape_instagram_profile env pm0).direct.isSome = true →
      (scrape_instagram_profile env pm0).direct = some env.directRun) ∧
    (env.directRun = .completed none →
      (scrape_instagram_profile env pm0).direct.isSome = true →
      (scrape_instagram_profile env pm0).final =
        .notFoundAggregated
          ((scrape_instagram_profile env pm0).proxyRuns.filterMap attemptReason)) ∧
    (env.directRun = .timeout →
      (scrape_instagram_profile env pm0).direct.isSome = true →
      (scrape_instagram_profile env pm0).final = .runtimeErr) := by
  have hlen := proxyLoop_runs_length env env.proxy_retry_limit 0 pm0 [] []
  cases hl : proxyLoop env env.proxy_retry_limit 0 pm0 [] [] with
  | terminalRL pmA reasonsA traceA =>
      rw [hl] at hlen
      simp only [LoopExit.runs, List.length_nil, Nat.zero_add] at hlen
      rw [scrape_eq_terminalRL env pm0 pmA reasonsA traceA hl]
      obtain ⟨pre, host2, h1, h2, h3⟩ := proxyLoop_terminalRL env _ _ _ _ _ _ _ _ hl
      simp only [List.nil_append] at h1
      refine ⟨hlen, ?_, ?_, ?_, ?_⟩
      · apply iff_of_false (by simp)
        intro hall
        apply (hall (host2, .rateLimited) ?_).1 rfl
        rw [h1]
        simp
      · intro hcon
        simp at hcon
      · intro _ hcon
        simp at hcon
      · intro _ hcon
        simp at hcon
  | terminalNF pmA reasonsA traceA =>
      rw [hl] at hlen
      simp only [LoopExit.runs, List.length_nil, Nat.zero_add] at hlen
      rw [scrape_eq_terminalNF env pm0 pmA reasonsA traceA hl]
      obtain ⟨pre, host2, h1, h2⟩ := proxyLoop_terminalNF env _ _ _ _ _ _ _ _ hl
      simp only [List.nil_append] at h1
      refine ⟨hlen, ?_, ?_, ?_, ?_⟩
      · apply iff_of_false (by simp)
        intro hall
        apply (hall (host2, .notFound) ?_).2.1 rfl
        rw [h1]
        simp
      · intro hcon
        simp at hcon
      · intro _ hcon
        simp at hcon
      · intro _ hcon
        simp at hcon
  | exited bufA pmA reasonsA traceA =>
      rw [hl] at hlen
      simp only [LoopExit.runs, List.length_nil, Nat.zero_add] at hlen
      obtain ⟨new, h1, h2, h3, h4, h5⟩ := proxyLoop_exited env _ _ _ _ _ _ _ _ _ hl
      simp only [List.nil_append] at h1 h2
      subst h1
      cases bufA with
      | some rec =>
          rw [scrape_eq_exited_some env pm0 pmA rec reasonsA traceA hl]
          refine ⟨hlen, ?_, ?_, ?_, ?_⟩
          · apply iff_of_false (by simp)
            intro hall
            obtain ⟨h2x, hmem⟩ := h5 rec rfl
            exact (hall (h2x, .completed (some rec)) hmem).2.2 rec rfl
          · intro hcon
            simp at hcon
          · intro _ hcon
            simp at hcon
          · intro _ hcon
            simp at hcon
      | none =>
          obtain ⟨hruns, hdir, hcomp, htime⟩ :=
            scrape_exited_none env pm0 pmA reasonsA traceA hl
          refine ⟨?_, ?_, ?_, ?_, ?_⟩
          · rw [hruns]
            exact hlen
          · apply iff_of_true (by rw [hdir]; rfl)
            intro e he
            rw [hruns] at he
            exact ⟨(h3 e he).1, (h3 e he).2, h4 rfl e he⟩
          · intro _
            exact hdir
          · intro hdr _
            rw [hcomp hdr, hruns, ← h2]
          · intro hdr _
            exact htime hdr

/-- Witness for C3: one proxy timeout followed by an empty direct
completion raises NotFound with the aggregated reason list. -/
theorem c3_witness :
    (scrape_instagram_profile envDirectEmpty pmSingle).final =
      .notFoundAggregated
        ((scrape_instagram_profile envDirectEmpty pmSingle).proxyRuns.filterMap
          attemptReason) :=
  (c3_proxy_bound_and_direct_fallback envDirectEmpty pmSingle).2.2.2.1 rfl rfl

/-- Counterexample for C3 as stated: when the direct attempt times out,
the orchestrator raises ScraperRuntimeError (line 149), which is not a
NotFound carrying aggregated failure reasons. -/
theorem c3_counterexample :
    (scrape_instagram_profile envAllTimeout pmSingle).direct = some .timeout ∧
    (scrape_instagram_profile envAllTimeout pmSingle).final = .runtimeErr ∧
    ∀ reasons, Final.runtimeErr ≠ .notFoundAggregated reasons :=
  ⟨rfl, rfl, by intro rs; simp⟩

/-- Counterexample for C4 as stated: with ring [b] fully in cooldown and
candidates [c] available, `get_next_host` neither refreshes (c is not
appended) nor returns None — it returns b. -/
theorem c4_counterexample :
    hostSkipped [("b", 300)] 100 "b" = true ∧
    get_next_host 100 ["c"] ⟨["b"], [("b", 300)]⟩ =
      (some "b", ⟨["b"], [("b", 300)]⟩) := by
  constructor
  · norm_num [hostSkipped, List.lookup]
  · norm_num [get_next_host, scanLoop, hostSkipped, mark_bad, List.lookup]

/-- Witness for C5: a 404 on the mobile-API stage ends the chain with
NotFound after the first stage. -/
theorem c5_witness :
    runChain id id "u" ⟨⟨404, "", none⟩, ⟨200, "", none⟩, ⟨200, "", none⟩,
        ⟨200, ⟨none, none, none, none, none⟩⟩⟩ =
      (.notFound .profileMissing, [.mobile]) :=
  (c5_http404_terminal id id "u" "" none ⟨none, none, none, none, none⟩
      ⟨⟨404, "", none⟩, ⟨200, "", none⟩, ⟨200, "", none⟩,
        ⟨200, ⟨none, none, none, none, none⟩⟩⟩).2.2.2.2.1 rfl
